import Mathlib

/-!
Verification of the request-execution engine of the `hurl` repository.

The definitions below are a shallow embedding of `src/network/client.go`
(`Fetch`, the header-line loop, the Akamai pragma constant, the transport
construction) and of the exit-code logic of `src/main.go`.  Strings are
modelled as `List Char`; the Go `http.Header` map is modelled as an
insertion-ordered flat list of (canonical-key, value) pairs.
-/

set_option autoImplicit false
set_option maxRecDepth 8000

namespace Hurl

/-- The Unicode code points for which Go's `unicode.IsSpace` returns true
(the set trimmed by `strings.TrimSpace`). -/
def goSpaceCodes : List Nat :=
  [0x9, 0xA, 0xB, 0xC, 0xD, 0x20, 0x85, 0xA0, 0x1680,
   0x2000, 0x2001, 0x2002, 0x2003, 0x2004, 0x2005, 0x2006, 0x2007,
   0x2008, 0x2009, 0x200A, 0x2028, 0x2029, 0x202F, 0x205F, 0x3000]

/-- Whether Go's `unicode.IsSpace` holds of a character. -/
def isGoSpace (c : Char) : Bool :=
  goSpaceCodes.contains c.toNat

/-- Go `strings.TrimSpace`: remove leading and trailing white space. -/
def goTrimSpace (s : List Char) : List Char :=
  ((s.dropWhile isGoSpace).reverse.dropWhile isGoSpace).reverse

/-- Go `strings.TrimRight(s, ";")`: remove trailing semicolon characters. -/
def trimRightSemis (s : List Char) : List Char :=
  (s.reverse.dropWhile (fun c => c == ';')).reverse

/-- Split a list at the first occurrence of `sep`, returning the parts
before and after it; `none` when `sep` does not occur.  This models Go
`strings.SplitN(s, sep, 2)`: the `some` case is `len(parts) == 2` and the
`none` case is `len(parts) == 1` with `parts[0] = s`. -/
def splitFirst (sep : Char) : List Char → Option (List Char × List Char)
  | [] => none
  | c :: cs =>
    if c == sep then some ([], cs)
    else
      match splitFirst sep cs with
      | some (b, a) => some (c :: b, a)
      | none => none

/-- The header-line parse step, translated from the loop body at
`src/network/client.go` lines 113–126: split on the first `:`; with a
colon, trim both parts and keep the entry only when the key is non-empty;
without a colon, require the trimmed line to be non-empty, strip trailing
`;` from it and use the empty value. -/
def parseHeaderLine (h : List Char) : Option (List Char × List Char) :=
  match splitFirst ':' h with
  | some (rawKey, rawValue) =>
    let key := goTrimSpace rawKey
    let value := goTrimSpace rawValue
    if key = [] then none else some (key, value)
  | none =>
    if goTrimSpace h = [] then none
    else some (trimRightSemis (goTrimSpace h), [])

/-- Parsing a whole sequence of raw header lines, in order. -/
def parseHeaders (lines : List (List Char)) : List (List Char × List Char) :=
  lines.filterMap parseHeaderLine

example : parseHeaderLine "X-Test:  a:b:c ".toList =
    some ("X-Test".toList, "a:b:c".toList) := by decide

example : parseHeaderLine "X-Flag;".toList = some ("X-Flag".toList, []) := by
  decide

example : parseHeaderLine ";".toList = some ([], []) := by decide

example : parseHeaderLine "   ".toList = none := by decide

example : parseHeaderLine " : x".toList = none := by decide

/-! ## The Go `http.Header` map

`http.Header.Add/Set/Get` canonicalise the key through
`textproto.CanonicalMIMEHeaderKey`.  The map is modelled as a flat,
insertion-ordered list of (canonical key, value) pairs; per-key value
order is the order of the `Add` calls, as in Go's `map[string][]string`. -/

/-- The non-alphanumeric bytes allowed in a header field name
(Go `textproto` token bytes). -/
def tokenSpecials : List Char := "!#$%&'*+-.^_`|~".toList

/-- Go `httpguts.ValidHeaderFieldByte` restricted to characters. -/
def isTokenChar (c : Char) : Bool :=
  (c.isAlpha || c.isDigit) || tokenSpecials.contains c

/-- The casing pass of `textproto.CanonicalMIMEHeaderKey`: upper-case a
letter at the start and after each `-`, lower-case other letters. -/
def canonicalize : Bool → List Char → List Char
  | _, [] => []
  | upper, c :: cs =>
    let c' := if upper && c.isLower then c.toUpper
              else if !upper && c.isUpper then c.toLower
              else c
    c' :: canonicalize (c' == '-') cs

/-- Go `textproto.CanonicalMIMEHeaderKey`: keys with a non-token byte are
returned unchanged, others get canonical casing. -/
def canonicalKey (k : List Char) : List Char :=
  if k.all isTokenChar then canonicalize true k else k

/-- The model of Go's `http.Header`. -/
abbrev Header : Type := List (List Char × List Char)

/-- Go `http.Header.Add`: append the value under the canonical key. -/
def headerAdd (k v : List Char) (h : Header) : Header :=
  h ++ [(canonicalKey k, v)]

/-- Go `http.Header.Set`: replace all values under the canonical key by
the single given value. -/
def headerSet (k v : List Char) (h : Header) : Header :=
  h.filter (fun p => !(p.1 == canonicalKey k)) ++ [(canonicalKey k, v)]

/-- All values stored under the canonical form of `k`, in order. -/
def headerValues (k : List Char) (h : Header) : List (List Char) :=
  (h.filter (fun p => p.1 == canonicalKey k)).map (fun p => p.2)

/-- Go `http.Header.Get`: the first value under the canonical key. -/
def headerGet (k : List Char) (h : Header) : Option (List Char) :=
  (headerValues k h).head?

example : canonicalKey "pragma".toList = "Pragma".toList := by decide
example : canonicalKey "uSeR-aGenT".toList = "User-Agent".toList := by decide
example : canonicalKey "x flag".toList = "x flag".toList := by decide

/-! ## Request construction (`Fetch`, client.go lines 105–130) -/

/-- The fixed User-Agent set at client.go line 110. -/
def defaultUserAgent : List Char :=
  "Mozilla/5.0 (Windows NT 10.0; Win64; x64) AppleWebKit/537.36 (KHTML, like Gecko) Chrome/135.0.0.0 Safari/537.36".toList

/-- The static Akamai Pragma constant, client.go lines 56–57. -/
def akamaiPragmaValue : List Char :=
  "akamai-x-get-request-id,akamai-x-get-cache-key,akamai-x-cache-on,akamai-x-cache-remote-on,akamai-x-get-true-cache-key,akamai-x-check-cacheable,akamai-x-get-extracted-values,akamai-x-feo-trace,x-akamai-logging-mode: verbose".toList

/-- One iteration of the custom-header loop (client.go lines 113–126):
parse the line and `Add` the entry when one is produced. -/
def addHeaderLine (acc : Header) (line : List Char) : Header :=
  match parseHeaderLine line with
  | some kv => headerAdd kv.1 kv.2 acc
  | none => acc

/-- The header map of the outbound request, translated from client.go
lines 110–130: set the fixed User-Agent, add each parsed custom header
line, then (when the flag is set) `Set` the Pragma constant. -/
def buildHeaders (customHeaders : List (List Char)) (addAkamaiPragma : Bool) :
    Header :=
  let h0 : Header := headerSet "User-Agent".toList defaultUserAgent []
  let h1 := customHeaders.foldl addHeaderLine h0
  if addAkamaiPragma then headerSet "Pragma".toList akamaiPragmaValue h1
  else h1

example :
    headerValues "Pragma".toList
      (buildHeaders ["pragma: no-cache".toList] true) = [akamaiPragmaValue] := by
  decide

example :
    headerValues "User-Agent".toList
      (buildHeaders ["User-Agent: mine".toList] false) =
      [defaultUserAgent, "mine".toList] := by
  decide

/-! ## RequestOptions and request construction -/

/-- `network.RequestOptions` (client.go lines 59–69).  The color
configuration field only affects the text of diagnostic output and is not
modelled. -/
structure RequestOptions where
  method : List Char
  url : List Char
  customHeaders : List (List Char)
  insecureSkipTLS : Bool
  followRedirects : Bool
  addAkamaiPragma : Bool
  verbose : Bool

/-- Go `net/http` `validMethod`: non-empty and made of token bytes. -/
def validMethod (m : List Char) : Bool :=
  !m.isEmpty && m.all isTokenChar

/-- Whether the string contains an ASCII control byte, which makes Go's
`net/url.Parse` fail (`stringContainsCTLByte`). -/
def containsCTLByte (s : List Char) : Bool :=
  s.any (fun c => c.toNat < 0x20 || c.toNat == 0x7f)

/-- The request (method, URL, header map) built by `Fetch`. -/
structure GoRequest where
  method : List Char
  url : List Char
  header : Header
deriving DecidableEq

/-- Translated from `http.NewRequest` as called at client.go line 105: an
empty method defaults to GET, an invalid method or an unparseable URL is a
construction error.  Of `net/url.Parse` only its control-byte rejection is
modelled; the inputs it rejects for other reasons are treated as parsing. -/
def newRequest (method url : List Char) : Option GoRequest :=
  let m := if method.isEmpty then "GET".toList else method
  if !validMethod m then none
  else if containsCTLByte url then none
  else some { method := m, url := url, header := [] }

/-- Request construction inside `Fetch` (client.go lines 105–130):
`http.NewRequest` followed by the header population of `buildHeaders`. -/
def buildRequest (opts : RequestOptions) : Option GoRequest :=
  match newRequest opts.method opts.url with
  | none => none
  | some req =>
    some { req with
           header := buildHeaders opts.customHeaders opts.addAkamaiPragma }

/-! ## Transport configuration (client.go lines 83–92) -/

/-- The TLS client configuration; the only field `Fetch` writes. -/
structure TLSConfig where
  insecureSkipVerify : Bool
deriving DecidableEq

/-- The transport, a clone of `http.DefaultTransport`; `Fetch` modifies
only `TLSClientConfig.InsecureSkipVerify`, so the model carries only the
modified field. -/
structure Transport where
  tlsClientConfig : TLSConfig
deriving DecidableEq

/-- Translated from client.go lines 83–87. -/
def buildTransport (opts : RequestOptions) : Transport :=
  { tlsClientConfig := { insecureSkipVerify := opts.insecureSkipTLS } }

/-! ## Dispatch: the `http.Client.Do` redirect loop

`Fetch` installs `CheckRedirect = ErrUseLastResponse` when
`FollowRedirects` is false (client.go lines 96–103) and otherwise leaves
the default policy (a cap of 10 redirects).  The loop below is modelled
from the redirect handling of `net/http.Client.Do`: a response whose
status is not a redirect status, or that lacks a `Location` header, is
final; otherwise the policy is consulted — `ErrUseLastResponse` returns
the current response with a nil error and its body not closed, while on
a policy error (the default policy after ten requests) `Client.Do` first
drains and closes the current response's body and then returns that
response, body already closed, together with the error (documented: a
non-nil Response with a non-nil error only occurs when CheckRedirect
fails, and even then the returned Response.Body is already closed).
Intermediate redirect responses are also closed before the next hop, but
they never escape the loop, so their closing is not tracked.  The
re-parsing of the `Location` value into a URL is not modelled. -/

/-- A received HTTP response: status code, headers, and whether its body
handle has been closed. -/
structure Response where
  statusCode : Nat
  headers : Header
  bodyClosed : Bool
deriving DecidableEq

/-- One low-level connection lifecycle callback of the Trace Observer
(client.go lines 135–202). -/
inductive TraceEvent where
  | getConn
  | dnsStart
  | dnsDone
  | connectStart
  | connectDone
  | tlsHandshakeStart
  | tlsHandshakeDone
  | gotConn
  | gotFirstResponseByte
deriving DecidableEq

/-- The environment of one execution: what the network answers to the
`n`-th request of the redirect chain (`none` = transport failure), and
which connection events that request's dispatch produces. -/
structure Network where
  respond : Nat → Option Response
  connEvents : Nat → List TraceEvent

/-- Transport-level failure causes of `http.Client.Do`. -/
inductive DoError where
  | transportFailure
  | tooManyRedirects
deriving DecidableEq

/-- Outcome of `http.Client.Do`: a response with a nil error, or an error
possibly accompanied by the last response (as on a redirect-policy
error). -/
inductive DoResult where
  | ok (resp : Response)
  | fail (resp : Option Response) (e : DoError)
deriving DecidableEq

/-- The statuses `net/http` treats as redirects (`redirectBehavior`). -/
def redirectStatus (code : Nat) : Bool :=
  code == 301 || code == 302 || code == 303 || code == 307 || code == 308

/-- Whether the `Location` header is absent or empty — in which case
`Client.Do` returns the 3xx response itself with a nil error. -/
def locationMissing (h : Header) : Bool :=
  match headerGet "Location".toList h with
  | none => true
  | some v => v.isEmpty

/-- The redirect loop of `Client.Do`; `hop` counts requests already made,
`fuel` is structural (always sufficient when started from `clientDo`).
Returns the outcome and the total number of requests dispatched. -/
def clientDoAux (follow : Bool) (net : Network) :
    Nat → Nat → DoResult × Nat
  | 0, hop => (.fail none .transportFailure, hop)
  | fuel + 1, hop =>
    match net.respond hop with
    | none => (.fail none .transportFailure, hop + 1)
    | some resp =>
      if redirectStatus resp.statusCode then
        if locationMissing resp.headers then (.ok resp, hop + 1)
        else if follow then
          if hop + 1 ≥ 10 then
            (.fail (some { resp with bodyClosed := true }) .tooManyRedirects,
             hop + 1)
          else clientDoAux follow net fuel (hop + 1)
        else (.ok resp, hop + 1)
      else (.ok resp, hop + 1)

/-- `client.Do(currentReq)` at client.go line 221, with the redirect
policy selected by `FollowRedirects`. -/
def clientDo (follow : Bool) (net : Network) : DoResult × Nat :=
  clientDoAux follow net 11 0

/-! ## Fetch -/

/-- The diagnostic output of one `Fetch` call in verbose mode: the `>`
request preamble (lines 207–219), the Trace Observer callbacks of each
dispatched request, and the `<` response preamble (lines 223–245), which
is printed whenever a response was obtained, error or not. -/
inductive VerboseEvent where
  | requestPreamble
  | trace (hop : Nat) (e : TraceEvent)
  | responsePreamble (statusCode : Nat)
deriving DecidableEq

/-- The events `Fetch` emits after construction succeeded. -/
def fetchEvents (opts : RequestOptions) (net : Network) (nHops : Nat)
    (gotResp : Option Nat) : List VerboseEvent :=
  if opts.verbose then
    VerboseEvent.requestPreamble ::
      ((List.range nHops).flatMap
        (fun h => (net.connEvents h).map (VerboseEvent.trace h)) ++
       (match gotResp with
        | some code => [VerboseEvent.responsePreamble code]
        | none => []))
  else []

/-- The classified errors `Fetch` can return (client.go lines 106–107 and
247–252). -/
inductive FetchError where
  | constructionError
  | requestError (e : DoError)
deriving DecidableEq

/-- The model of `network.Fetch` (client.go lines 73–255): build the
request; on a construction error return a nil response and the error with
nothing dispatched and nothing emitted; otherwise dispatch through the
redirect loop and return the response (also a non-nil response
accompanying an error) together with the classified error, never closing
the body. -/
def fetchModel (opts : RequestOptions) (net : Network) :
    (Option Response × Option FetchError) × List VerboseEvent :=
  match buildRequest opts with
  | none => ((none, some .constructionError), [])
  | some _req =>
    let r := clientDo opts.followRedirects net
    match r.1 with
    | .ok resp =>
      ((some resp, none), fetchEvents opts net r.2 (some resp.statusCode))
    | .fail oresp e =>
      ((oresp, some (.requestError e)),
       fetchEvents opts net r.2 (oresp.map (fun x => x.statusCode)))

/-! ## main.go: exit code -/

/-- The exit code of `main` (main.go lines 43–103) as a function of the
argument count, the success of `config.LoadConfig`, and the pair returned
by `network.Fetch`.  The body of `if resp.StatusCode >= 400` at main.go
lines 100–102 is empty (commented out), so no status-code branch appears
here. -/
def mainExitCode (nArg : Nat) (configOk : Bool)
    (fetchRes : Option Response × Option FetchError) : Nat :=
  if nArg ≠ 1 then 1
  else if !configOk then 1
  else
    match fetchRes.2 with
    | some _ => 1
    | none => 0

/-! ## Concrete fixtures -/

/-- A network that answers every request with the same response and emits
no connection events. -/
def constNet (r : Response) : Network :=
  { respond := fun _ => some r, connEvents := fun _ => [] }

/-- A 500 response with one header. -/
def resp500 : Response :=
  { statusCode := 500
    headers := [("Content-Type".toList, "text/html".toList)]
    bodyClosed := false }

/-- A 302 response carrying a `Location` header. -/
def resp302 : Response :=
  { statusCode := 302
    headers := [("Location".toList, "/next".toList),
                ("X-Probe".toList, "one".toList)]
    bodyClosed := false }

/-- Baseline options: a plain `GET` with no flags. -/
def optsBase : RequestOptions :=
  { method := "GET".toList
    url := "http://example.com/".toList
    customHeaders := []
    insecureSkipTLS := false
    followRedirects := false
    addAkamaiPragma := false
    verbose := false }

example :
    fetchModel optsBase (constNet resp500) = ((some resp500, none), []) := by
  decide

example :
    fetchModel { optsBase with followRedirects := false } (constNet resp302) =
      ((some resp302, none), []) := by
  decide

example :
    fetchModel { optsBase with followRedirects := true } (constNet resp302) =
      ((some { resp302 with bodyClosed := true },
        some (.requestError .tooManyRedirects)), []) := by
  decide

example :
    fetchModel { optsBase with method := "GE T".toList, verbose := true }
      (constNet resp500) = ((none, some .constructionError), []) := by
  decide

/-! ## Helper lemmas -/

theorem splitFirst_not_mem {sep : Char} {h : List Char} (hn : sep ∉ h) :
    splitFirst sep h = none := by
  induction h with
  | nil => rfl
  | cons c cs ih =>
    have hc : (c == sep) = false := by
      simp only [beq_eq_false_iff_ne]
      exact fun he => hn (he ▸ List.mem_cons_self c cs)
    have hcs : splitFirst sep cs = none :=
      ih (fun hm => hn (List.mem_cons_of_mem _ hm))
    simp [splitFirst, hc, hcs]

theorem splitFirst_append {sep : Char} {b : List Char} (a : List Char)
    (hb : sep ∉ b) : splitFirst sep (b ++ sep :: a) = some (b, a) := by
  induction b with
  | nil => simp [splitFirst]
  | cons c cs ih =>
    have hc : (c == sep) = false := by
      simp only [beq_eq_false_iff_ne]
      exact fun he => hb (he ▸ List.mem_cons_self c cs)
    have hcs := ih (fun hm => hb (List.mem_cons_of_mem _ hm))
    simp [splitFirst, hc, hcs]

theorem splitFirst_mem {sep : Char} {h : List Char} :
    ∀ {b a : List Char}, splitFirst sep h = some (b, a) → sep ∈ h := by
  induction h with
  | nil => intro b a hs; simp [splitFirst] at hs
  | cons c cs ih =>
    intro b a hs
    by_cases hc : (c == sep) = true
    · simp [beq_iff_eq.mp hc]
    · simp only [splitFirst, Bool.not_eq_true] at hs
      rw [if_neg (by simp [hc])] at hs
      cases hcs : splitFirst sep cs with
      | none => rw [hcs] at hs; simp at hs
      | some p =>
        obtain ⟨p1, p2⟩ := p
        exact List.mem_cons_of_mem _ (ih hcs)

theorem goTrimSpace_nil {h : List Char} (hnil : goTrimSpace h = []) :
    ∀ c ∈ h, isGoSpace c := by
  intro c hc
  unfold goTrimSpace at hnil
  rw [List.reverse_eq_nil_iff, List.dropWhile_eq_nil_iff] at hnil
  have hsplit : c ∈ h.takeWhile isGoSpace ++ h.dropWhile isGoSpace := by
    rw [List.takeWhile_append_dropWhile]; exact hc
  rcases List.mem_append.mp hsplit with h1 | h2
  · exact List.mem_takeWhile_imp h1
  · exact hnil c (List.mem_reverse.mpr h2)

theorem trimRightSemis_nil {s : List Char} (hnil : trimRightSemis s = []) :
    ∀ c ∈ s, c = ';' := by
  intro c hc
  unfold trimRightSemis at hnil
  rw [List.reverse_eq_nil_iff, List.dropWhile_eq_nil_iff] at hnil
  exact beq_iff_eq.mp (hnil c (List.mem_reverse.mpr hc))

theorem filter_beq_filter_bne (l : Header) (ck : List Char) :
    (l.filter (fun p => !(p.1 == ck))).filter (fun p => p.1 == ck) = [] := by
  induction l with
  | nil => rfl
  | cons p l ih =>
    by_cases hp : (p.1 == ck) = true
    · simp [List.filter_cons, hp, ih]
    · simp [List.filter_cons, hp, ih]

theorem headerValues_headerSet_self (k v : List Char) (h : Header) :
    headerValues k (headerSet k v h) = [v] := by
  unfold headerValues headerSet
  rw [List.filter_append, filter_beq_filter_bne]
  simp

theorem foldl_addHeaderLine (customs : List (List Char)) (acc : Header) :
    customs.foldl addHeaderLine acc =
      acc ++ (parseHeaders customs).map (fun kv => (canonicalKey kv.1, kv.2)) := by
  induction customs generalizing acc with
  | nil => simp [parseHeaders]
  | cons line rest ih =>
    rw [List.foldl_cons, ih]
    cases hp : parseHeaderLine line with
    | none => simp [addHeaderLine, hp, parseHeaders, List.filterMap_cons]
    | some kv =>
      simp [addHeaderLine, hp, parseHeaders, List.filterMap_cons, headerAdd,
        List.append_assoc]

theorem canonicalKey_userAgent :
    canonicalKey "User-Agent".toList = "User-Agent".toList := by decide

theorem buildHeaders_no_pragma (customs : List (List Char)) :
    buildHeaders customs false =
      ("User-Agent".toList, defaultUserAgent) ::
        (parseHeaders customs).map (fun kv => (canonicalKey kv.1, kv.2)) := by
  simp [buildHeaders, foldl_addHeaderLine, headerSet]
  decide

theorem clientDoAux_noFollow {net : Network} {resp : Response} (fuel hop : Nat)
    (h0 : net.respond hop = some resp) :
    clientDoAux false net (fuel + 1) hop = (.ok resp, hop + 1) := by
  simp only [clientDoAux, h0]
  by_cases h1 : redirectStatus resp.statusCode = true
  · by_cases h2 : locationMissing resp.headers = true
    · simp [h1, h2]
    · simp [h1, h2]
  · simp [h1]

theorem clientDo_noFollow {net : Network} {resp : Response}
    (h0 : net.respond 0 = some resp) :
    clientDo false net = (.ok resp, 1) := by
  have h := clientDoAux_noFollow 10 0 h0
  simpa [clientDo, show (11 : Nat) = 10 + 1 from rfl] using h

theorem clientDoAux_ok_origin {follow : Bool} {net : Network} :
    ∀ (fuel hop : Nat) (r : Response),
      (clientDoAux follow net fuel hop).1 = .ok r →
      ∃ i, net.respond i = some r := by
  intro fuel
  induction fuel with
  | zero => intro hop r hr; simp [clientDoAux] at hr
  | succ fuel ih =>
    intro hop r hr
    cases hresp : net.respond hop with
    | none =>
      simp only [clientDoAux, hresp] at hr
      exact DoResult.noConfusion hr
    | some resp =>
      simp only [clientDoAux, hresp] at hr
      by_cases h1 : redirectStatus resp.statusCode = true
      · rw [if_pos h1] at hr
        by_cases h2 : locationMissing resp.headers = true
        · rw [if_pos h2] at hr
          simp at hr
          exact ⟨hop, by rw [hresp, hr]⟩
        · rw [if_neg h2] at hr
          by_cases h3 : follow = true
          · rw [if_pos h3] at hr
            by_cases h4 : hop + 1 ≥ 10
            · rw [if_pos h4] at hr
              simp at hr
            · rw [if_neg h4] at hr
              exact ih (hop + 1) r hr
          · rw [if_neg h3] at hr
            simp at hr
            exact ⟨hop, by rw [hresp, hr]⟩
      · rw [if_neg h1] at hr
        simp at hr
        exact ⟨hop, by rw [hresp, hr]⟩

theorem clientDoAux_fail_origin {follow : Bool} {net : Network} :
    ∀ (fuel hop : Nat) (r : Response) (e : DoError),
      (clientDoAux follow net fuel hop).1 = .fail (some r) e →
      ∃ i r0, net.respond i = some r0 ∧ r = { r0 with bodyClosed := true } := by
  intro fuel
  induction fuel with
  | zero => intro hop r e hr; simp [clientDoAux] at hr
  | succ fuel ih =>
    intro hop r e hr
    cases hresp : net.respond hop with
    | none =>
      simp only [clientDoAux, hresp] at hr
      simp at hr
    | some resp =>
      simp only [clientDoAux, hresp] at hr
      by_cases h1 : redirectStatus resp.statusCode = true
      · rw [if_pos h1] at hr
        by_cases h2 : locationMissing resp.headers = true
        · rw [if_pos h2] at hr
          simp at hr
        · rw [if_neg h2] at hr
          by_cases h3 : follow = true
          · rw [if_pos h3] at hr
            by_cases h4 : hop + 1 ≥ 10
            · rw [if_pos h4] at hr
              simp at hr
              exact ⟨hop, resp, hresp, hr.1.symm⟩
            · rw [if_neg h4] at hr
              exact ih (hop + 1) r e hr
          · rw [if_neg h3] at hr
            simp at hr
      · rw [if_neg h1] at hr
        simp at hr

/-! ## Fixtures for the claim witnesses -/

/-- Options with the vendor-pragma flag and a user-supplied Pragma line. -/
def optsPragma : RequestOptions :=
  { optsBase with
    addAkamaiPragma := true
    customHeaders := ["Pragma: no-cache".toList] }

/-- The request `buildRequest` produces for `optsPragma`. -/
def reqPragma : GoRequest :=
  { method := "GET".toList
    url := optsBase.url
    header := buildHeaders ["Pragma: no-cache".toList] true }

/-- Options whose method is not a valid HTTP token. -/
def optsBadMethod : RequestOptions :=
  { optsBase with method := "GE T".toList, verbose := true }

/-- Options that follow redirects. -/
def optsFollow : RequestOptions :=
  { optsBase with followRedirects := true }

/-! ## Claims -/

/-- Claim C1: for every RequestSpec with the vendor-pragma flag set, the
outbound request built by Fetch carries exactly one `Pragma` header whose
value equals the fixed constant `akamaiPragmaValue`, regardless of any
user-supplied Pragma entry among the custom header lines. -/
theorem claim_C1_vendor_pragma_single (opts : RequestOptions)
    (req : GoRequest) (hflag : opts.addAkamaiPragma = true)
    (hreq : buildRequest opts = some req) :
    headerValues "Pragma".toList req.header = [akamaiPragmaValue] := by
  unfold buildRequest at hreq
  cases hnr : newRequest opts.method opts.url with
  | none => rw [hnr] at hreq; exact Option.noConfusion hreq
  | some r0 =>
    rw [hnr] at hreq
    injection hreq with h
    subst h
    simp only [hflag, buildHeaders, if_true]
    exact headerValues_headerSet_self _ _ _

/-- Witness for C1 at concrete options carrying a user Pragma line. -/
theorem claim_C1_witness :
    headerValues "Pragma".toList reqPragma.header = [akamaiPragmaValue] :=
  claim_C1_vendor_pragma_single optsPragma reqPragma (by decide) (by decide)

/-- Claim C2: with follow-redirects false, a redirect-class (3xx) first
response is returned by Fetch as a Completed result (its own response,
nil error); the redirect is not chased and not classified as an error. -/
theorem claim_C2_no_follow_first_response (opts : RequestOptions)
    (net : Network) (resp : Response)
    (hf : opts.followRedirects = false)
    (hc : (buildRequest opts).isSome = true)
    (h0 : net.respond 0 = some resp)
    (_h3 : 300 ≤ resp.statusCode) (_h4 : resp.statusCode < 400) :
    (fetchModel opts net).1 = (some resp, none) := by
  cases hbr : buildRequest opts with
  | none => rw [hbr] at hc; simp at hc
  | some req =>
    simp only [fetchModel, hbr, hf, clientDo_noFollow h0]

/-- Witness for C2: a 302 response with a Location header is surfaced. -/
theorem claim_C2_witness :
    (fetchModel optsBase (constNet resp302)).1 = (some resp302, none) :=
  claim_C2_no_follow_first_response optsBase (constNet resp302) resp302
    (by decide) (by decide) rfl (by decide) (by decide)

/-- Claim C3: every received response − whatever its status code − makes
Fetch return it with a nil error, and the exit code is 0 on any completed
exchange; exit code 1 occurs exactly on a wrong argument count, a config
load failure, or an error returned by Fetch. -/
theorem claim_C3_completed_exit_codes :
    (∀ (opts : RequestOptions) (net : Network) (resp : Response),
        (buildRequest opts).isSome = true →
        (clientDo opts.followRedirects net).1 = .ok resp →
        (fetchModel opts net).1 = (some resp, none) ∧
          mainExitCode 1 true (fetchModel opts net).1 = 0) ∧
    (∀ (nArg : Nat) (configOk : Bool)
        (fr : Option Response × Option FetchError),
        mainExitCode nArg configOk fr ≠ 0 ↔
          (nArg ≠ 1 ∨ configOk = false ∨ fr.2.isSome = true)) := by
  constructor
  · intro opts net resp hb hok
    cases hbr : buildRequest opts with
    | none => rw [hbr] at hb; simp at hb
    | some req =>
      have hfetch : (fetchModel opts net).1 = (some resp, none) := by
        simp only [fetchModel, hbr]
        rw [hok]
      refine ⟨hfetch, ?_⟩
      rw [hfetch]
      rfl
  · intro n c fr
    cases hfr : fr.2 with
    | none => by_cases hn : n = 1 <;> cases c <;> simp [mainExitCode, hn, hfr]
    | some e => by_cases hn : n = 1 <;> cases c <;> simp [mainExitCode, hn, hfr]

/-- Witness for C3: a 500 response is Completed and exits 0. -/
theorem claim_C3_witness :
    (fetchModel optsBase (constNet resp500)).1 = (some resp500, none) ∧
      mainExitCode 1 true (fetchModel optsBase (constNet resp500)).1 = 0 :=
  claim_C3_completed_exit_codes.1 optsBase (constNet resp500) resp500
    (by decide) (by decide)

/-- Claim C4: a raw header line containing a `:` is split at the first
`:` only (the value may contain further colons) and both parts are
trimmed; the entry is kept exactly when the trimmed key is non-empty. -/
theorem claim_C4_split_first_colon_trim (b a : List Char) (hb : ':' ∉ b) :
    parseHeaderLine (b ++ ':' :: a) =
      if goTrimSpace b = [] then none
      else some (goTrimSpace b, goTrimSpace a) := by
  unfold parseHeaderLine
  rw [splitFirst_append a hb]

/-- Witness for C4 at the spec's example line. -/
theorem claim_C4_witness :
    parseHeaderLine ("X-Test".toList ++ ':' :: "  a:b:c ".toList) =
      some ("X-Test".toList, "a:b:c".toList) := by
  rw [claim_C4_split_first_colon_trim _ _ (by decide)]
  decide

/-- Claim C5 is false as stated: the raw line consisting of a single `;`
is colon-free and non-empty after trimming, so the code strips the
trailing `;` and adds a header entry whose key is empty instead of
dropping the line. -/
theorem claim_C5_counterexample :
    parseHeaderLine ";".toList = some ([], []) := by decide

/-- Claim C5 (amended): empty and whitespace-only lines are silently
dropped, and an entry with an empty key can arise only from a colon-free
line whose trimmed form is non-empty and consists solely of `;`
characters — such a line yields an empty-key entry instead of being
dropped. -/
theorem claim_C5_amended_empty_key :
    (∀ h : List Char, goTrimSpace h = [] → parseHeaderLine h = none) ∧
    (∀ (h k v : List Char), parseHeaderLine h = some (k, v) → k = [] →
      splitFirst ':' h = none ∧ goTrimSpace h ≠ [] ∧
        ∀ c ∈ goTrimSpace h, c = ';') := by
  constructor
  · intro h hs
    cases hsf : splitFirst ':' h with
    | none => simp [parseHeaderLine, hsf, hs]
    | some p =>
      exfalso
      obtain ⟨b, a⟩ := p
      have hmem : (':' : Char) ∈ h := splitFirst_mem hsf
      have hsp := goTrimSpace_nil hs ':' hmem
      exact absurd hsp (by decide)
  · intro h k v hp hk
    cases hsf : splitFirst ':' h with
    | some p =>
      obtain ⟨b, a⟩ := p
      exfalso
      simp only [parseHeaderLine, hsf] at hp
      by_cases hkey : goTrimSpace b = []
      · rw [if_pos hkey] at hp; exact Option.noConfusion hp
      · rw [if_neg hkey] at hp
        injection hp with hp'
        have hfst : goTrimSpace b = k := congrArg Prod.fst hp'
        exact hkey (by rw [hfst, hk])
    | none =>
      simp only [parseHeaderLine, hsf] at hp
      by_cases hnil : goTrimSpace h = []
      · rw [if_pos hnil] at hp; exact Option.noConfusion hp
      · rw [if_neg hnil] at hp
        injection hp with hp'
        have hfst : trimRightSemis (goTrimSpace h) = k := congrArg Prod.fst hp'
        exact ⟨rfl, hnil, trimRightSemis_nil (by rw [hfst, hk])⟩

/-- Witness for C5 (amended): a whitespace-only line yields no entry. -/
theorem claim_C5_witness : parseHeaderLine "   ".toList = none :=
  claim_C5_amended_empty_key.1 "   ".toList (by decide)

/-- Claim C6: a colon-free raw header line that is non-empty after
trimming yields exactly one entry: the trimmed line with trailing `;`
stripped as key, and the empty value. -/
theorem claim_C6_colon_free_entry (h : List Char) (hns : ':' ∉ h)
    (hne : goTrimSpace h ≠ []) :
    parseHeaderLine h = some (trimRightSemis (goTrimSpace h), []) := by
  simp [parseHeaderLine, splitFirst_not_mem hns, hne]

/-- Witness for C6 at the spec's example line. -/
theorem claim_C6_witness :
    parseHeaderLine "X-Flag;".toList = some ("X-Flag".toList, []) := by
  rw [claim_C6_colon_free_entry "X-Flag;".toList (by decide) (by decide)]
  decide

/-- Claim C7 is false as stated: a custom header naming the default
User-Agent does not override it — the code `Add`s every parsed entry, so
the built request carries the default value first and the custom value
after it, not only the custom value. -/
theorem claim_C7_counterexample :
    headerValues "User-Agent".toList
        (buildHeaders ["User-Agent: mine".toList] false) =
      [defaultUserAgent, "mine".toList] ∧
    headerValues "User-Agent".toList
        (buildHeaders ["User-Agent: mine".toList] false) ≠
      ["mine".toList] :=
  ⟨by decide, by decide⟩

/-- Claim C7 (amended): every parsed header entry is applied additively
in all cases — a custom header whose canonical key names the default
User-Agent does not replace it; the default value stays first and the
custom values follow in order. -/
theorem claim_C7_amended_additive (customs : List (List Char)) :
    headerValues "User-Agent".toList (buildHeaders customs false) =
      defaultUserAgent ::
        ((parseHeaders customs).filter
            (fun kv => canonicalKey kv.1 == canonicalKey "User-Agent".toList)).map
          (fun kv => kv.2) := by
  rw [buildHeaders_no_pragma]
  unfold headerValues
  rw [List.filter_cons]
  have hhead :
      (((("User-Agent".toList : List Char), defaultUserAgent)).1 ==
        canonicalKey "User-Agent".toList) = true := by decide
  rw [hhead]
  simp only [if_true, List.map_cons]
  congr 1
  rw [List.filter_map, List.map_map]
  rfl

/-- Claim C8: when request construction fails, Fetch returns a nil
response with a construction error, no network request is made, and zero
trace events (no verbose preamble either) are emitted. -/
theorem claim_C8_construction_error_no_events (opts : RequestOptions)
    (net : Network) (hc : buildRequest opts = none) :
    fetchModel opts net = ((none, some .constructionError), []) := by
  simp [fetchModel, hc]

/-- Witness for C8: an invalid method with verbose on emits nothing. -/
theorem claim_C8_witness :
    fetchModel optsBadMethod (constNet resp500) =
      ((none, some .constructionError), []) :=
  claim_C8_construction_error_no_events optsBadMethod (constNet resp500)
    (by decide)

/-- Claim C9: the transport's TLS verification is disabled iff the
insecure-TLS flag is set, and that flag is the only option influencing
the transport. -/
theorem claim_C9_insecure_tls_only_toggle :
    (∀ opts : RequestOptions,
        (buildTransport opts).tlsClientConfig.insecureSkipVerify =
          opts.insecureSkipTLS) ∧
    (∀ o1 o2 : RequestOptions,
        o1.insecureSkipTLS = o2.insecureSkipTLS →
          buildTransport o1 = buildTransport o2) := by
  refine ⟨fun _ => rfl, fun o1 o2 h => ?_⟩
  simp [buildTransport, h]

/-- Witness for C9: options differing only in non-TLS flags give the
same transport. -/
theorem claim_C9_witness :
    buildTransport optsBase =
      buildTransport { optsBase with verbose := true, followRedirects := true } :=
  claim_C9_insecure_tls_only_toggle.2 _ _ rfl

/-- Claim C10 is false as stated: on the one path where dispatch fails
after a response was obtained (a CheckRedirect failure, here the default
policy's ten-redirect cap), `Client.Do` has already drained and closed
that response's body before `Fetch` returns it, so the returned
response's body is not left open for the caller although the network
produced it open. -/
theorem claim_C10_counterexample :
    resp302.bodyClosed = false ∧
    (fetchModel optsFollow (constNet resp302)).1 =
      (some { resp302 with bodyClosed := true },
       some (FetchError.requestError DoError.tooManyRedirects)) :=
  ⟨by decide, by decide⟩

/-- Claim C10 (amended): when dispatch fails after a response was
obtained, Fetch still returns that response alongside the classified
error rather than discarding it, and Fetch's own code closes nothing: a
response returned with a nil error is a network response unchanged (its
body still open, the caller's to close), while the response accompanying
an error is a network response with status and headers intact whose body
the HTTP client has already closed before returning. -/
theorem claim_C10_amended_response_ownership :
    (∀ (opts : RequestOptions) (net : Network) (resp : Response)
        (e : DoError),
        (buildRequest opts).isSome = true →
        (clientDo opts.followRedirects net).1 = .fail (some resp) e →
        (fetchModel opts net).1 = (some resp, some (.requestError e))) ∧
    (∀ (opts : RequestOptions) (net : Network) (r : Response),
        (fetchModel opts net).1 = (some r, none) →
        ∃ i, net.respond i = some r) ∧
    (∀ (opts : RequestOptions) (net : Network) (r : Response)
        (e : FetchError),
        (fetchModel opts net).1 = (some r, some e) →
        ∃ i r0, net.respond i = some r0 ∧
          r = { r0 with bodyClosed := true }) := by
  refine ⟨?_, ?_, ?_⟩
  · intro opts net resp e hb hfail
    cases hbr : buildRequest opts with
    | none => rw [hbr] at hb; simp at hb
    | some req =>
      simp only [fetchModel, hbr]
      rw [hfail]
  · intro opts net r hr
    cases hbr : buildRequest opts with
    | none =>
      simp only [fetchModel, hbr] at hr
      simp at hr
    | some req =>
      simp only [fetchModel, hbr] at hr
      cases hres : (clientDo opts.followRedirects net).1 with
      | ok resp =>
        rw [hres] at hr
        simp at hr
        exact clientDoAux_ok_origin 11 0 r (hr ▸ hres)
      | fail oresp e0 =>
        rw [hres] at hr
        simp at hr
  · intro opts net r e hr
    cases hbr : buildRequest opts with
    | none =>
      simp only [fetchModel, hbr] at hr
      simp at hr
    | some req =>
      simp only [fetchModel, hbr] at hr
      cases hres : (clientDo opts.followRedirects net).1 with
      | ok resp =>
        rw [hres] at hr
        simp at hr
      | fail oresp e0 =>
        rw [hres] at hr
        simp at hr
        exact clientDoAux_fail_origin 11 0 r e0 (hr.1 ▸ hres)

/-- Witness for C10 (amended): following redirects past the cap returns
the last 302 with status and headers intact and its body already closed,
alongside the redirect error. -/
theorem claim_C10_witness :
    (fetchModel optsFollow (constNet resp302)).1 =
      (some { resp302 with bodyClosed := true },
       some (.requestError .tooManyRedirects)) :=
  claim_C10_amended_response_ownership.1 optsFollow (constNet resp302)
    { resp302 with bodyClosed := true } .tooManyRedirects
    (by decide) (by decide)

end Hurl
